import Mathlib

/-!
# Pyramids: a painter's-algorithm WebGL scene (`js/pyramid.js`)

A shallow embedding of the rendering pipeline of `js/pyramid.js` and theorems about it.

Modelling conventions.

* JavaScript numbers are elements of an arbitrary linearly ordered field `α`
  (the real-arithmetic reading of the program); rounding, overflow and infinities are not
  modelled.  `Math.sqrt`, `Math.sin`, `Math.cos` and `Math.PI` are passed as parameters, so
  every definition is executable once they are instantiated.
* The one non-number that the code itself can manufacture, `NaN` (from reading past the end of
  an array, or from `0 / 0` on an empty face), is modelled as `none` in `Option α`.
* A JavaScript array of fixed length three (a position, an eye position) is a `Vec3`.
* `Array.prototype.sort` sorts in place and returns its receiver; the embedding returns the
  sorted list and the callers that hold the array store it back.  The sort itself is a stable
  insertion sort.  It stands for the code wherever every depth compared is a number: the
  comparator is then consistent and every stable sort returns the same list.  Where a depth is
  `NaN` the language leaves the order to the engine, and no theorem about the order is claimed
  there.
* The graphics context is reduced to the log of its `drawArrays` submissions, and `main` to the
  list of its observable steps under a host that says which start-up calls succeed.
-/

namespace Pyramids

/-! ## Data model -/

/-- A three-component array such as `[x, y, z]`. -/
abbrev Vec3 (α : Type) := Fin 3 → α

/-- One entry of the array returned by `createPyramids`. -/
structure Solid (α : Type) where
  vertices : List α
  faces : List (List Nat)
  edges : List (List Nat)
  position : Vec3 α
  color : List α

/-- The call `xs.slice(start, stop)` for non-negative integer bounds. -/
def slice {β : Type} (xs : List β) (start stop : Nat) : List β :=
  (xs.drop start).take (stop - start)

section Core

variable {α : Type} [LinearOrderedField α]

/-- The scene of `createPyramids`: three identical pyramids at different positions. -/
def createPyramids : List (Solid α) :=
  let pyramid1 : Solid α :=
    { vertices := [-1, 0, 1, 1, 0, 1, 1, 0, -1, -1, 0, -1, 0, 2, 0]
      faces := [[0, 1, 4], [1, 2, 4], [2, 3, 4], [3, 0, 4], [0, 1, 2, 3]]
      edges := [[0, 1], [1, 2], [2, 3], [3, 0], [0, 4], [1, 4], [2, 4], [3, 4]]
      position := ![-3, 0, 0]
      color := [0.0, 1.0, 1.0, 1.0] }
  let pyramid2 : Solid α :=
    { vertices := [-1, 0, 1, 1, 0, 1, 1, 0, -1, -1, 0, -1, 0, 2, 0]
      faces := [[0, 1, 4], [1, 2, 4], [2, 3, 4], [3, 0, 4], [0, 1, 2, 3]]
      edges := [[0, 1], [1, 2], [2, 3], [3, 0], [0, 4], [1, 4], [2, 4], [3, 4]]
      position := ![0, 0, -5]
      color := [1.0, 0.0, 1.0, 1.0] }
  let pyramid3 : Solid α :=
    { vertices := [-1, 0, 1, 1, 0, 1, 1, 0, -1, -1, 0, -1, 0, 2, 0]
      faces := [[0, 1, 4], [1, 2, 4], [2, 3, 4], [3, 0, 4], [0, 1, 2, 3]]
      edges := [[0, 1], [1, 2], [2, 3], [3, 0], [0, 4], [1, 4], [2, 4], [3, 4]]
      position := ![3, 0, 0]
      color := [1.0, 1.0, 0.0, 1.0] }
  [pyramid1, pyramid2, pyramid3]

/-! ## Depth metric and depth sort -/

/-- The body of the `forEach` callback of `calculateFaceDepth`: the distance `dist` from the
vertex with the given index to the camera.  A component read past the end of the slice is
`undefined`, which makes the whole expression `NaN` (`none`). -/
def vertexDist (sqrt : α → α) (vertices : List α) (cameraPosition : Vec3 α) (index : Nat) :
    Option α :=
  let vertex := slice vertices (index * 3) (index * 3 + 3)
  match vertex[0]?, vertex[1]?, vertex[2]? with
  | some x, some y, some z =>
    some (sqrt ((x - cameraPosition 0) ^ 2 + (y - cameraPosition 1) ^ 2
      + (z - cameraPosition 2) ^ 2))
  | _, _, _ => none

/-- The statement `depth += dist` on numbers that may be `NaN`. -/
def addNaN (depth dist : Option α) : Option α :=
  match depth, dist with
  | some d, some x => some (d + x)
  | _, _ => none

/-- The function `calculateFaceDepth(face, vertices, cameraPosition)`.  The final division
`depth / face.length` is `NaN` for an empty face (`0 / 0`). -/
def calculateFaceDepth (sqrt : α → α) (face : List Nat) (vertices : List α)
    (cameraPosition : Vec3 α) : Option α :=
  let depth := face.foldl
    (fun depth index => addNaN depth (vertexDist sqrt vertices cameraPosition index)) (some 0)
  match depth with
  | some d => if face.length = 0 then none else some (d / (face.length : α))
  | none => none

/-- The comparator handed to `sort` by `sortFacesByDepth`:
`calculateFaceDepth(b, ...) - calculateFaceDepth(a, ...)`, `NaN` when either depth is. -/
def depthComparator (sqrt : α → α) (vertices : List α) (cameraPosition : Vec3 α)
    (a b : List Nat) : Option α :=
  match calculateFaceDepth sqrt b vertices cameraPosition,
    calculateFaceDepth sqrt a vertices cameraPosition with
  | some db, some da => some (db - da)
  | _, _ => none

/-- The abstract operation `SortCompare` of `Array.prototype.sort`: the comparator's result,
with `NaN` read as `+0`. -/
def sortCompare {β : Type} (comparefn : β → β → Option α) (x y : β) : α :=
  (comparefn x y).getD 0

/-- The method `Array.prototype.sort(comparefn)`.  ECMAScript fixes its result only for a
comparator that orders the elements consistently: the list then comes out in comparator order
with elements that compare equal in their input order, and every stable sort returns that one
list (`sortFacesByDepth_unique_stable`); insertion sort is the one written here.  For an
inconsistent comparator (with this program: a `NaN` depth) the order is implementation-defined,
and what this definition returns there is a choice of the model, not a fact about the code. -/
def arraySort {β : Type} (comparefn : β → β → Option α) (xs : List β) : List β :=
  xs.insertionSort (fun x y => sortCompare comparefn x y ≤ 0)

/-- The function `sortFacesByDepth(faces, vertices, cameraPosition)`.  The returned list is also
the new content of the array `faces`, which `sort` reorders in place. -/
def sortFacesByDepth (sqrt : α → α) (faces : List (List Nat)) (vertices : List α)
    (cameraPosition : Vec3 α) : List (List Nat) :=
  arraySort (depthComparator sqrt vertices cameraPosition) faces

/-- The function `transformVertices(vertices, position)`. -/
def transformVertices (vertices : List α) (position : Vec3 α) : List α :=
  vertices.enum.map (fun iv => iv.2 + position ⟨iv.1 % 3, Nat.mod_lt _ (by decide)⟩)

/-! ## Draw stage

The graphics context is modelled by the part of its state that the draw functions write
(the bound `ARRAY_BUFFER` and the `uColor` uniform) and by the log of `drawArrays` submissions,
each recorded with the buffer and colour in force when it was issued. -/

/-- The primitive topologies used by the program. -/
inductive DrawMode
  | TRIANGLE_FAN
  | LINES
  deriving DecidableEq

/-- One `gl.drawArrays(mode, first, count)` submission. -/
structure DrawCall (α : Type) where
  mode : DrawMode
  first : Nat
  count : Nat
  color : List α
  buffer : List α

/-- The graphics context as seen by `drawFace` and `drawEdges`. -/
structure GLState (α : Type) where
  arrayBuffer : List α
  uColor : List α
  draws : List (DrawCall α)

/-- The calls `createBuffer`, `bindBuffer(ARRAY_BUFFER, ...)`, `bufferData(ARRAY_BUFFER, data)`. -/
def GLState.bufferData (gl : GLState α) (data : List α) : GLState α :=
  { gl with arrayBuffer := data }

/-- The call `gl.uniform4fv(uniformLocations.color, value)`. -/
def GLState.uniform4fv (gl : GLState α) (value : List α) : GLState α :=
  { gl with uColor := value }

/-- The call `gl.drawArrays(mode, first, count)`. -/
def GLState.drawArrays (gl : GLState α) (mode : DrawMode) (first count : Nat) : GLState α :=
  { gl with draws := gl.draws ++ [⟨mode, first, count, gl.uColor, gl.arrayBuffer⟩] }

/-- A context on which nothing has been drawn yet. -/
def GLState.fresh : GLState α := ⟨[], [], []⟩

/-- The function `drawFace(gl, programInfo, face, vertices, color)`. -/
def drawFace (gl : GLState α) (face : List Nat) (vertices : List α) (color : List α) :
    GLState α :=
  let faceVertices := face.flatMap (fun index => slice vertices (index * 3) (index * 3 + 3))
  let gl := gl.bufferData faceVertices
  let gl := gl.uniform4fv color
  gl.drawArrays DrawMode.TRIANGLE_FAN 0 face.length

/-- The body of the `forEach` callback of `drawEdges`, for one edge. -/
def drawEdge (vertices : List α) (gl : GLState α) (edge : List Nat) : GLState α :=
  let edgeVertices := edge.flatMap (fun index => slice vertices (index * 3) (index * 3 + 3))
  let gl := gl.bufferData edgeVertices
  let gl := gl.uniform4fv [0.0, 0.0, 0.0, 1.0]
  gl.drawArrays DrawMode.LINES 0 2

/-- The function `drawEdges(gl, programInfo, edges, vertices)`. -/
def drawEdges (gl : GLState α) (edges : List (List Nat)) (vertices : List α) : GLState α :=
  edges.foldl (drawEdge vertices) gl

/-- The body of the `forEach` callback of `drawScene`, for one pyramid.  The second component
is the pyramid after the iteration: its `faces` array has been reordered by the in-place sort
inside `sortFacesByDepth`. -/
def drawPyramid (sqrt : α → α) (cameraPosition : Vec3 α) (gl : GLState α)
    (pyramid : Solid α) : GLState α × Solid α :=
  let transformedVertices := transformVertices pyramid.vertices pyramid.position
  let sortedFaces := sortFacesByDepth sqrt pyramid.faces transformedVertices cameraPosition
  let gl := sortedFaces.foldl
    (fun gl face => drawFace gl face transformedVertices pyramid.color) gl
  let gl := drawEdges gl pyramid.edges transformedVertices
  (gl, { pyramid with faces := sortedFaces })

/-- The function `drawScene(gl, programInfo, pyramids, cameraPosition)`: the context and the
pyramids after the frame. -/
def drawScene (sqrt : α → α) (gl : GLState α) (pyramids : List (Solid α))
    (cameraPosition : Vec3 α) : GLState α × List (Solid α) :=
  pyramids.foldl
    (fun st pyramid =>
      let r := drawPyramid sqrt cameraPosition st.1 pyramid
      (r.1, st.2 ++ [r.2]))
    (gl, [])

/-! ## Camera and input controller -/

/-- The function `rotateCamera(angleX, angleY, radius)`. -/
def rotateCamera (sin cos : α → α) (angleX angleY radius : α) : Vec3 α :=
  let cameraX := radius * sin angleX * cos angleY
  let cameraY := radius * sin angleY
  let cameraZ := radius * cos angleX * cos angleY
  ![cameraX, cameraY, cameraZ]

/-- The mutable variables of `main` that the event listeners and `render` share. -/
structure OrbitState (α : Type) where
  radius : α
  angleX : α
  angleY : α
  isDragging : Bool
  previousMouseX : α
  previousMouseY : α

/-- The events `main` listens to, with the fields the listeners read; `zoomInput` carries
`parseFloat(event.target.value)`. -/
inductive InputEvent (α : Type)
  | mousedown (clientX clientY : α)
  | mousemove (clientX clientY : α)
  | mouseup
  | mouseleave
  | zoomInput (value : α)

/-- The values the variables are initialised with in `main`. -/
def initialOrbit : OrbitState α :=
  { radius := 10.0, angleX := 0, angleY := 0, isDragging := false,
    previousMouseX := 0, previousMouseY := 0 }

/-- The event listeners registered by `main`, as one transition function. -/
def handleEvent (PI : α) (s : OrbitState α) : InputEvent α → OrbitState α
  | InputEvent.mousedown clientX clientY =>
    { s with isDragging := true, previousMouseX := clientX, previousMouseY := clientY }
  | InputEvent.mousemove clientX clientY =>
    if s.isDragging then
      let deltaX := clientX - s.previousMouseX
      let deltaY := clientY - s.previousMouseY
      let angleX := s.angleX + deltaX * 0.01
      let angleY := s.angleY + deltaY * 0.01
      let angleY := max (-PI / 2) (min (PI / 2) angleY)
      { s with angleX := angleX, angleY := angleY,
               previousMouseX := clientX, previousMouseY := clientY }
    else s
  | InputEvent.mouseup => { s with isDragging := false }
  | InputEvent.mouseleave => { s with isDragging := false }
  | InputEvent.zoomInput value => { s with radius := value }

/-- The orbit variables after a sequence of events, starting from `initialOrbit`. -/
def runEvents (PI : α) (events : List (InputEvent α)) : OrbitState α :=
  events.foldl (handleEvent PI) initialOrbit

/-- The function `render` inside `main`, for one frame: the eye from the orbit variables, then
`drawScene`.  Not modelled: `gl.clear`, the projection and view matrices (built by the external
`mat4` library and carried by no draw record) and the closing `requestAnimationFrame(render)`,
which only schedules the next frame. -/
def render (sqrt sin cos : α → α) (s : OrbitState α) (gl : GLState α)
    (pyramids : List (Solid α)) : GLState α × List (Solid α) :=
  let cameraPosition := rotateCamera sin cos s.angleX s.angleY s.radius
  drawScene sqrt gl pyramids cameraPosition

/-! ## Specification-side definitions -/

/-- The Euclidean distance from vertex `index` of a flat vertex list (slots `3 * index` to
`3 * index + 2`) to the eye, as the specification words the depth metric. -/
def euclideanDistance (sqrt : α → α) (vertices : List α) (eye : Vec3 α) (index : Nat) : α :=
  sqrt ((vertices.getD (3 * index) 0 - eye 0) ^ 2 + (vertices.getD (3 * index + 1) 0 - eye 1) ^ 2
    + (vertices.getD (3 * index + 2) 0 - eye 2) ^ 2)

/-- The mean depth of a face as the specification words it: the arithmetic mean, over the
face's vertex indices, of the Euclidean distance from the vertex to the eye. -/
def meanDepth (sqrt : α → α) (face : List Nat) (vertices : List α) (eye : Vec3 α) : α :=
  (face.map (euclideanDistance sqrt vertices eye)).sum / (face.length : α)

/-- The submission the specification expects for one face: a triangle fan over the face's
vertices, in the given fill colour, with as many vertices as the face has indices. -/
def triangleFanCall (vertices : List α) (color : List α) (face : List Nat) : DrawCall α :=
  { mode := DrawMode.TRIANGLE_FAN, first := 0, count := face.length, color := color,
    buffer := face.flatMap (fun index => slice vertices (index * 3) (index * 3 + 3)) }

/-- The submission the specification expects for one edge: a two-vertex line in black. -/
def blackLineCall (vertices : List α) (edge : List Nat) : DrawCall α :=
  { mode := DrawMode.LINES, first := 0, count := 2, color := [0, 0, 0, 1],
    buffer := edge.flatMap (fun index => slice vertices (index * 3) (index * 3 + 3)) }

/-- The submissions the specification expects for one Solid: its faces in depth order, then
its edges. -/
def solidCalls (sqrt : α → α) (cameraPosition : Vec3 α) (pyramid : Solid α) :
    List (DrawCall α) :=
  let worldVertices := transformVertices pyramid.vertices pyramid.position
  (sortFacesByDepth sqrt pyramid.faces worldVertices cameraPosition).map
      (triangleFanCall worldVertices pyramid.color)
    ++ pyramid.edges.map (blackLineCall worldVertices)

/-- The Solid left behind by a frame: the same Solid with its `faces` array in depth order. -/
def afterFrame (sqrt : α → α) (cameraPosition : Vec3 α) (pyramid : Solid α) : Solid α :=
  { pyramid with
    faces := sortFacesByDepth sqrt pyramid.faces
      (transformVertices pyramid.vertices pyramid.position) cameraPosition }

/-- The vertex list of scenario 1 of the specification. -/
def scenario1Vertices : List α := [-1, 0, 1, 1, 0, 1, 1, 0, -1, -1, 0, -1, 0, 2, 0]

/-- The two faces of scenario 1: a side face and the base. -/
def scenario1Faces : List (List Nat) := [[0, 1, 4], [0, 1, 2, 3]]

/-- The eye position of scenario 1. -/
def scenario1Eye : Vec3 α := ![0, 0, 10]

end Core

/-! ## Start-up -/

/-- The two kinds of shader `initShaderProgram` compiles. -/
inductive ShaderType
  | VERTEX_SHADER
  | FRAGMENT_SHADER
  deriving DecidableEq

/-- What the host gives `main`: whether `getContext` returns a context, the `COMPILE_STATUS` of
each shader, the `LINK_STATUS` of a program with both compiled shaders attached (a program
that lacks one never links), and whether the binding raises a `TypeError` when handed `null`
in place of a shader or program (WebGL 1.0 declared these arguments nullable and only
recorded `INVALID_VALUE`; later bindings reject `null`). -/
structure WebGLHost where
  contextAvailable : Bool
  compileStatus : ShaderType → Bool
  linkStatus : Bool
  nullHandleThrows : Bool

/-- The observable steps of `main`. -/
inductive Effect
  | alerted
  | compileErrorLogged
  | linkErrorLogged
  | typeErrorThrown
  | geometryBuilt
  | listenersRegistered
  | renderRequested
  deriving DecidableEq

/-- The function `createShader(gl, sourceCode, type)`: the shader, or `null`, with what it
logged. -/
def createShader (host : WebGLHost) (type : ShaderType) : Option ShaderType × List Effect :=
  if !host.compileStatus type then
    (none, [Effect.compileErrorLogged])
  else (some type, [])

/-- The function `initShaderProgram(gl)`: what it logged, and `none` when a call threw,
otherwise `some` of its return value (`none` for `null`). -/
def initShaderProgram (host : WebGLHost) : List Effect × Option (Option Unit) :=
  let vertexShader := createShader host ShaderType.VERTEX_SHADER
  let fragmentShader := createShader host ShaderType.FRAGMENT_SHADER
  let log := vertexShader.2 ++ fragmentShader.2
  if host.nullHandleThrows && (vertexShader.1.isNone || fragmentShader.1.isNone) then
    (log ++ [Effect.typeErrorThrown], none)
  else if !(vertexShader.1.isSome && fragmentShader.1.isSome && host.linkStatus) then
    (log ++ [Effect.linkErrorLogged], some none)
  else (log, some (some ()))

/-- The function `main`, up to and including its last statement, as the list of its
observable steps. -/
def main (host : WebGLHost) : List Effect :=
  if !host.contextAvailable then
    [Effect.alerted]
  else
    match initShaderProgram host with
    | (log, none) => log
    | (log, some shaderProgram) =>
      if host.nullHandleThrows && shaderProgram.isNone then
        log ++ [Effect.typeErrorThrown]
      else
        log ++ [Effect.geometryBuilt, Effect.listenersRegistered, Effect.renderRequested]

/-- A host whose shaders compile but whose program does not link, with a binding that accepts
`null` handles. -/
def linkFailureHost : WebGLHost :=
  { contextAvailable := true, compileStatus := fun _ => true, linkStatus := false,
    nullHandleThrows := false }

/-- A host whose vertex shader does not compile, with a binding that accepts `null` handles. -/
def compileFailureHost : WebGLHost :=
  { contextAvailable := true,
    compileStatus := fun t => decide (t = ShaderType.FRAGMENT_SHADER),
    linkStatus := true, nullHandleThrows := false }

/-! ## Theorems -/

/-! ### Lists and insertion sort -/

/-- The head after an ordered insertion is the inserted element or the old head. -/
theorem head?_orderedInsert {β : Type} (r : β → β → Prop) [DecidableRel r] (a : β)
    (l : List β) :
    (l.orderedInsert r a).head? = some a ∨ (l.orderedInsert r a).head? = l.head? := by
  cases l with
  | nil => left; rfl
  | cons b t =>
    by_cases h : r a b
    · left; simp [List.orderedInsert, h]
    · right; simp [List.orderedInsert, h]

/-- Ordered insertion under a total relation keeps adjacent elements related. -/
theorem chain_orderedInsert {β : Type} (r : β → β → Prop) [DecidableRel r]
    (htot : ∀ x y, r x y ∨ r y x) (a : β) (l : List β) (hl : l.Chain' r) :
    (l.orderedInsert r a).Chain' r := by
  induction l with
  | nil => simp [List.orderedInsert]
  | cons b t ih =>
    by_cases h : r a b
    · simp only [List.orderedInsert, h, if_true]
      exact List.Chain'.cons h hl
    · simp only [List.orderedInsert, h, if_false]
      rw [List.chain'_cons'] at hl ⊢
      refine ⟨?_, ih hl.2⟩
      intro y hy
      rcases head?_orderedInsert r a t with h1 | h1
      · rw [h1] at hy
        cases Option.mem_some_iff.mp hy
        exact (htot a b).resolve_left h
      · rw [h1] at hy
        exact hl.1 y hy

/-- Insertion sort under a total relation relates every adjacent pair of its output. -/
theorem chain_insertionSort {β : Type} (r : β → β → Prop) [DecidableRel r]
    (htot : ∀ x y, r x y ∨ r y x) (l : List β) : (l.insertionSort r).Chain' r := by
  induction l with
  | nil => simp
  | cons a t ih => exact chain_orderedInsert r htot a _ ih

/-- In a pairwise related list, `a` precedes `b` when `b` may not precede `a`. -/
theorem pair_sublist_of_pairwise {β : Type} (r : β → β → Prop) (a b : β) (hab : a ≠ b)
    (hr : ¬ r b a) (l : List β) (hl : l.Pairwise r) (ha : a ∈ l) (hb : b ∈ l) :
    List.Sublist [a, b] l := by
  induction l with
  | nil => cases ha
  | cons c t ih =>
    rw [List.pairwise_cons] at hl
    rcases List.mem_cons.mp ha with hac | hat
    · subst hac
      rcases List.mem_cons.mp hb with hba | hbt
      · exact absurd hba.symm hab
      · exact List.Sublist.cons₂ _ (List.singleton_sublist.mpr hbt)
    · rcases List.mem_cons.mp hb with hbc | hbt
      · subst hbc
        exact absurd (hl.1 a hat) hr
      · exact List.Sublist.cons _ (ih hl.2 hat hbt)

/-- Two elements of a duplicate-free list occur in one order only. -/
theorem not_both_orders {β : Type} (a b : β) (l : List β) (hl : l.Nodup)
    (h1 : List.Sublist [a, b] l) (h2 : List.Sublist [b, a] l) : False := by
  induction l with
  | nil => cases h1
  | cons c t ih =>
    rw [List.nodup_cons] at hl
    cases h1 with
    | cons _ h1t =>
      cases h2 with
      | cons _ h2t => exact ih hl.2 h1t h2t
      | cons₂ _ h2t => exact hl.1 (h1t.subset (by simp))
    | cons₂ _ h1t =>
      cases h2 with
      | cons _ h2t => exact hl.1 (h2t.subset (by simp))
      | cons₂ _ h2t => exact hl.1 (h1t.subset (by simp))

/-- Lists with equal images under a map that is injective across them are equal. -/
theorem map_eq_map_of_injOn {β γ : Type} (f : β → γ) (l1 l2 : List β)
    (hinj : ∀ x ∈ l1, ∀ y ∈ l2, f x = f y → x = y) (h : l1.map f = l2.map f) : l1 = l2 := by
  induction l1 generalizing l2 with
  | nil =>
    cases l2 with
    | nil => rfl
    | cons b t => cases h
  | cons a s ih =>
    cases l2 with
    | nil => cases h
    | cons b t =>
      simp only [List.map_cons, List.cons.injEq] at h
      have hab := hinj a (List.mem_cons_self _ _) b (List.mem_cons_self _ _) h.1
      have hst := ih t (fun x hx y hy => hinj x (List.mem_cons_of_mem _ hx) y
        (List.mem_cons_of_mem _ hy)) h.2
      rw [hab, hst]

/-- Two lists in descending key order in which, for every key value, the elements with that key
form the same list are equal. -/
theorem eq_of_pairwise_of_filter_eq {β κ : Type} [LinearOrder κ] (key : β → κ)
    (l1 l2 : List β)
    (h1 : l1.Pairwise (fun a b => key b ≤ key a))
    (h2 : l2.Pairwise (fun a b => key b ≤ key a))
    (hf : ∀ k : κ, l1.filter (fun x => decide (key x = k))
      = l2.filter (fun x => decide (key x = k))) :
    l1 = l2 := by
  have hmem : ∀ (m1 m2 : List β),
      (∀ k : κ, m1.filter (fun x => decide (key x = k))
        = m2.filter (fun x => decide (key x = k))) → ∀ x, x ∈ m1 → x ∈ m2 := by
    intro m1 m2 h x hx
    have hx1 : x ∈ m1.filter (fun y => decide (key y = key x)) :=
      List.mem_filter.mpr ⟨hx, by simp⟩
    rw [h (key x)] at hx1
    exact (List.mem_filter.mp hx1).1
  induction l1 generalizing l2 with
  | nil =>
    cases l2 with
    | nil => rfl
    | cons b t2 =>
      have hb := hmem (b :: t2) [] (fun k => (hf k).symm) b (List.mem_cons_self _ _)
      cases hb
  | cons a t1 ih =>
    cases l2 with
    | nil =>
      have ha := hmem (a :: t1) [] hf a (List.mem_cons_self _ _)
      cases ha
    | cons b t2 =>
      rw [List.pairwise_cons] at h1 h2
      have hba : key b ≤ key a := by
        have hb := hmem (b :: t2) (a :: t1) (fun k => (hf k).symm) b (List.mem_cons_self _ _)
        rcases List.mem_cons.mp hb with hb | hb
        · rw [hb]
        · exact h1.1 b hb
      have hab : key a ≤ key b := by
        have ha := hmem (a :: t1) (b :: t2) hf a (List.mem_cons_self _ _)
        rcases List.mem_cons.mp ha with ha | ha
        · rw [ha]
        · exact h2.1 a ha
      have hkey : key b = key a := le_antisymm hba hab
      have hhead := hf (key a)
      simp only [List.filter_cons, hkey, decide_True, if_true, List.cons.injEq] at hhead
      have htail : ∀ k : κ, t1.filter (fun x => decide (key x = k))
          = t2.filter (fun x => decide (key x = k)) := by
        intro k
        by_cases hk : key a = k
        · subst hk
          exact hhead.2
        · have hkb : ¬ key b = k := by rw [hkey]; exact hk
          have := hf k
          simpa only [List.filter_cons, hk, hkb, decide_False, Bool.false_eq_true,
            if_false] using this
      rw [hhead.1, ih t2 h1.2 h2.2 htail]

/-- Reading component `k` of the slice that holds vertex `i` reads slot `i * 3 + k`. -/
theorem slice_getElem? {β : Type} (xs : List β) (i k : Nat) (hk : k < 3) :
    (slice xs (i * 3) (i * 3 + 3))[k]? = xs[i * 3 + k]? := by
  unfold slice
  have h3 : i * 3 + 3 - i * 3 = 3 := by omega
  rw [h3, List.getElem?_take_of_lt hk, List.getElem?_drop]

/-! ### Depth metric and depth sort -/

section

variable {α : Type} [LinearOrderedField α]

/-- For an index below the vertex count the distance is a number, the Euclidean one. -/
theorem vertexDist_of_lt (sqrt : α → α) (vertices : List α) (eye : Vec3 α) (i : Nat)
    (h : i < vertices.length / 3) :
    vertexDist sqrt vertices eye i = some (euclideanDistance sqrt vertices eye i) := by
  have h0 : i * 3 + 0 < vertices.length := by omega
  have h1 : i * 3 + 1 < vertices.length := by omega
  have h2 : i * 3 + 2 < vertices.length := by omega
  unfold vertexDist euclideanDistance
  simp only [slice_getElem? vertices i 0 (by decide), slice_getElem? vertices i 1 (by decide),
    slice_getElem? vertices i 2 (by decide)]
  rw [List.getElem?_eq_getElem h0, List.getElem?_eq_getElem h1, List.getElem?_eq_getElem h2]
  have e0 : 3 * i = i * 3 := Nat.mul_comm 3 i
  rw [e0]
  simp only [Nat.add_zero] at h0 ⊢
  simp only [List.getD_eq_getElem?_getD, List.getElem?_eq_getElem h0,
    List.getElem?_eq_getElem h1, List.getElem?_eq_getElem h2, Option.getD_some]

/-- The accumulation loop of `calculateFaceDepth` on in-range indices adds up the distances. -/
theorem foldl_addNaN_of_lt (sqrt : α → α) (vertices : List α) (eye : Vec3 α) (face : List Nat)
    (h : ∀ i ∈ face, i < vertices.length / 3) (d : α) :
    face.foldl (fun depth index => addNaN depth (vertexDist sqrt vertices eye index)) (some d)
      = some (d + (face.map (euclideanDistance sqrt vertices eye)).sum) := by
  induction face generalizing d with
  | nil => simp
  | cons i t ih =>
    have hi := h i (List.mem_cons_self _ _)
    have ht : ∀ j ∈ t, j < vertices.length / 3 := fun j hj => h j (List.mem_cons_of_mem _ hj)
    have hstep : addNaN (some d) (some (euclideanDistance sqrt vertices eye i))
        = some (d + euclideanDistance sqrt vertices eye i) := rfl
    rw [List.foldl_cons, vertexDist_of_lt sqrt vertices eye i hi, hstep, ih ht, List.map_cons,
      List.sum_cons, add_assoc]

/-- On a non-empty face with in-range indices `calculateFaceDepth` is the mean depth of the
specification. -/
theorem calculateFaceDepth_eq_meanDepth (sqrt : α → α) (vertices : List α) (eye : Vec3 α)
    (face : List Nat) (hne : face ≠ []) (h : ∀ i ∈ face, i < vertices.length / 3) :
    calculateFaceDepth sqrt face vertices eye = some (meanDepth sqrt face vertices eye) := by
  unfold calculateFaceDepth meanDepth
  rw [foldl_addNaN_of_lt sqrt vertices eye face h 0]
  have : face.length ≠ 0 := by simpa using hne
  simp [this]

/-- The depth comparator, with `NaN` read as `+0`, relates any two faces one way or the other. -/
theorem sortCompare_depth_total (sqrt : α → α) (vertices : List α) (eye : Vec3 α)
    (x y : List Nat) :
    sortCompare (depthComparator sqrt vertices eye) x y ≤ 0
      ∨ sortCompare (depthComparator sqrt vertices eye) y x ≤ 0 := by
  unfold sortCompare depthComparator
  cases hx : calculateFaceDepth sqrt x vertices eye with
  | none => left; cases calculateFaceDepth sqrt y vertices eye <;> simp
  | some dx =>
    cases hy : calculateFaceDepth sqrt y vertices eye with
    | none => left; simp
    | some dy =>
      simp only [Option.getD_some, sub_nonpos]
      exact le_total dy dx

/-- When both depths are numbers, `a` may precede `b` exactly when `b` is not farther than `a`. -/
theorem sortCompare_depth_of_some (sqrt : α → α) (vertices : List α) (eye : Vec3 α)
    (x y : List Nat) (dx dy : α) (hx : calculateFaceDepth sqrt x vertices eye = some dx)
    (hy : calculateFaceDepth sqrt y vertices eye = some dy) :
    sortCompare (depthComparator sqrt vertices eye) x y ≤ 0 ↔ dy ≤ dx := by
  unfold sortCompare depthComparator
  simp [hx, hy]

/-- Adjacent faces of the list returned by the insertion sort are in comparator order; used
below where every depth is a number. -/
theorem sortFacesByDepth_chain (sqrt : α → α) (faces : List (List Nat)) (vertices : List α)
    (eye : Vec3 α) :
    (sortFacesByDepth sqrt faces vertices eye).Chain'
      (fun x y => sortCompare (depthComparator sqrt vertices eye) x y ≤ 0) :=
  chain_insertionSort _ (sortCompare_depth_total sqrt vertices eye) faces

/-- The sorted list is a permutation of the input. -/
theorem sortFacesByDepth_perm_faces (sqrt : α → α) (faces : List (List Nat)) (vertices : List α)
    (eye : Vec3 α) : (sortFacesByDepth sqrt faces vertices eye).Perm faces :=
  List.perm_insertionSort _ faces

/-- On well-formed faces the sorted list is in descending mean depth, pairwise. -/
theorem sortFacesByDepth_pairwise (sqrt : α → α) (faces : List (List Nat))
    (vertices : List α) (eye : Vec3 α)
    (hne : ∀ f ∈ faces, f ≠ [])
    (hidx : ∀ f ∈ faces, ∀ i ∈ f, i < vertices.length / 3) :
    (sortFacesByDepth sqrt faces vertices eye).Pairwise
      (fun f1 f2 => meanDepth sqrt f2 vertices eye ≤ meanDepth sqrt f1 vertices eye) := by
  have hdepth : ∀ f ∈ faces,
      calculateFaceDepth sqrt f vertices eye = some (meanDepth sqrt f vertices eye) :=
    fun f hf => calculateFaceDepth_eq_meanDepth sqrt vertices eye f (hne f hf) (hidx f hf)
  have hmap := List.map_insertionSort
    (fun x y => sortCompare (depthComparator sqrt vertices eye) x y ≤ 0)
    (fun f1 f2 => meanDepth sqrt f2 vertices eye ≤ meanDepth sqrt f1 vertices eye)
    id faces
    (fun a ha b hb =>
      sortCompare_depth_of_some sqrt vertices eye a b _ _ (hdepth a ha) (hdepth b hb))
  rw [List.map_id, List.map_id] at hmap
  unfold sortFacesByDepth arraySort
  rw [hmap]
  haveI : IsTotal (List Nat)
      (fun f1 f2 => meanDepth sqrt f2 vertices eye ≤ meanDepth sqrt f1 vertices eye) :=
    ⟨fun a b => le_total _ _⟩
  haveI : IsTrans (List Nat)
      (fun f1 f2 => meanDepth sqrt f2 vertices eye ≤ meanDepth sqrt f1 vertices eye) :=
    ⟨fun a b c hab hbc => le_trans hbc hab⟩
  exact List.sorted_insertionSort _ faces

/-- Stability: a face that precedes another in the input, and is not nearer, still precedes it in
the output. -/
theorem sortFacesByDepth_stable_pair (sqrt : α → α) (faces : List (List Nat))
    (vertices : List α) (eye : Vec3 α) (a b : List Nat)
    (ha : a ≠ []) (hb : b ≠ [])
    (hia : ∀ i ∈ a, i < vertices.length / 3) (hib : ∀ i ∈ b, i < vertices.length / 3)
    (hle : meanDepth sqrt b vertices eye ≤ meanDepth sqrt a vertices eye)
    (hsub : List.Sublist [a, b] faces) :
    List.Sublist [a, b] (sortFacesByDepth sqrt faces vertices eye) := by
  refine List.pair_sublist_insertionSort ?_ hsub
  exact (sortCompare_depth_of_some sqrt vertices eye a b _ _
    (calculateFaceDepth_eq_meanDepth sqrt vertices eye a ha hia)
    (calculateFaceDepth_eq_meanDepth sqrt vertices eye b hb hib)).mpr hle

/-- Claim C1 (farthest first).  For faces that are non-empty and whose indices are below the
vertex count, `calculateFaceDepth` is the arithmetic mean of the Euclidean distances from the
face's vertices to the eye, and every adjacent pair `(f1, f2)` of the list returned by
`sortFacesByDepth` satisfies `meanDepth f1 ≥ meanDepth f2`. -/
theorem sortFacesByDepth_farthest_first (sqrt : α → α) (faces : List (List Nat))
    (vertices : List α) (eye : Vec3 α)
    (hne : ∀ f ∈ faces, f ≠ [])
    (hidx : ∀ f ∈ faces, ∀ i ∈ f, i < vertices.length / 3) :
    (∀ f ∈ faces,
        calculateFaceDepth sqrt f vertices eye = some (meanDepth sqrt f vertices eye)) ∧
      (sortFacesByDepth sqrt faces vertices eye).Chain'
        (fun f1 f2 => meanDepth sqrt f1 vertices eye ≥ meanDepth sqrt f2 vertices eye) := by
  have hdepth : ∀ f ∈ faces,
      calculateFaceDepth sqrt f vertices eye = some (meanDepth sqrt f vertices eye) :=
    fun f hf => calculateFaceDepth_eq_meanDepth sqrt vertices eye f (hne f hf) (hidx f hf)
  refine ⟨hdepth, ?_⟩
  have hmem : ∀ f, f ∈ sortFacesByDepth sqrt faces vertices eye → f ∈ faces :=
    fun f hf => (sortFacesByDepth_perm_faces sqrt faces vertices eye).mem_iff.mp hf
  have hchain := List.Chain'.iff_mem.mp (sortFacesByDepth_chain sqrt faces vertices eye)
  refine hchain.imp ?_
  rintro f1 f2 ⟨h1, h2, hr⟩
  exact (sortCompare_depth_of_some sqrt vertices eye f1 f2 _ _ (hdepth f1 (hmem f1 h1))
    (hdepth f2 (hmem f2 h2))).mp hr

/-- Claim C2 (permutation).  The list returned by `sortFacesByDepth` is a permutation of the input
faces: same length, and every face occurs in it as many times as in the input. -/
theorem sortFacesByDepth_is_permutation (sqrt : α → α) (faces : List (List Nat))
    (vertices : List α) (eye : Vec3 α) :
    (sortFacesByDepth sqrt faces vertices eye).Perm faces ∧
      (sortFacesByDepth sqrt faces vertices eye).length = faces.length ∧
      ∀ f : List Nat,
        (sortFacesByDepth sqrt faces vertices eye).countP (fun g => decide (g = f))
          = faces.countP (fun g => decide (g = f)) := by
  have hp := sortFacesByDepth_perm_faces sqrt faces vertices eye
  exact ⟨hp, hp.length_eq, fun f => hp.countP_eq _⟩

/-- Stability, class by class: among well-formed faces, those at any one mean depth come out of
the sort in the order in which they went in. -/
theorem sortFacesByDepth_filter_eq (sqrt : α → α) (faces : List (List Nat))
    (vertices : List α) (eye : Vec3 α)
    (hne : ∀ f ∈ faces, f ≠ [])
    (hidx : ∀ f ∈ faces, ∀ i ∈ f, i < vertices.length / 3) (k : α) :
    (sortFacesByDepth sqrt faces vertices eye).filter
        (fun f => decide (meanDepth sqrt f vertices eye = k))
      = faces.filter (fun f => decide (meanDepth sqrt f vertices eye = k)) := by
  have hperm := sortFacesByDepth_perm_faces sqrt faces vertices eye
  have hdepth : ∀ f ∈ faces,
      calculateFaceDepth sqrt f vertices eye = some (meanDepth sqrt f vertices eye) :=
    fun f hf => calculateFaceDepth_eq_meanDepth sqrt vertices eye f (hne f hf) (hidx f hf)
  have hclass : (faces.filter (fun f => decide (meanDepth sqrt f vertices eye = k))).Pairwise
      (fun x y => sortCompare (depthComparator sqrt vertices eye) x y ≤ 0) := by
    refine List.pairwise_of_forall_mem_list ?_
    intro a ha b hb
    have ha' := List.mem_filter.mp ha
    have hb' := List.mem_filter.mp hb
    rw [sortCompare_depth_of_some sqrt vertices eye a b _ _ (hdepth a ha'.1) (hdepth b hb'.1)]
    have e1 : meanDepth sqrt a vertices eye = k := by simpa using ha'.2
    have e2 : meanDepth sqrt b vertices eye = k := by simpa using hb'.2
    rw [e1, e2]
  have hsub : List.Sublist (faces.filter (fun f => decide (meanDepth sqrt f vertices eye = k)))
      (sortFacesByDepth sqrt faces vertices eye) :=
    List.sublist_insertionSort hclass (List.filter_sublist _)
  have hsub2 := hsub.filter (fun f => decide (meanDepth sqrt f vertices eye = k))
  rw [List.filter_filter] at hsub2
  simp only [Bool.and_self] at hsub2
  exact (hsub2.eq_of_length ((hperm.filter _).length_eq).symm).symm

/-- On well-formed faces the model of `sort` is immaterial: every list that is in descending
mean depth and keeps the faces of each depth in their input order, which is what any stable
sort returns for this comparator, is the list `sortFacesByDepth` returns. -/
theorem sortFacesByDepth_unique_stable (sqrt : α → α) (faces : List (List Nat))
    (vertices : List α) (eye : Vec3 α)
    (hne : ∀ f ∈ faces, f ≠ [])
    (hidx : ∀ f ∈ faces, ∀ i ∈ f, i < vertices.length / 3)
    (out : List (List Nat))
    (hsorted : out.Pairwise
      (fun f1 f2 => meanDepth sqrt f2 vertices eye ≤ meanDepth sqrt f1 vertices eye))
    (hstable : ∀ k : α, out.filter (fun f => decide (meanDepth sqrt f vertices eye = k))
      = faces.filter (fun f => decide (meanDepth sqrt f vertices eye = k))) :
    out = sortFacesByDepth sqrt faces vertices eye :=
  eq_of_pairwise_of_filter_eq (fun f => meanDepth sqrt f vertices eye) _ _ hsorted
    (sortFacesByDepth_pairwise sqrt faces vertices eye hne hidx)
    (fun k => (hstable k).trans
      (sortFacesByDepth_filter_eq sqrt faces vertices eye hne hidx k).symm)

/-- Claim C9 (idempotence).  For faces that are non-empty and whose indices are below the vertex
count, so that every depth is a number and the comparator orders the faces consistently,
sorting the sorted list again returns the same list, exact ties included. -/
theorem sortFacesByDepth_idempotent (sqrt : α → α) (faces : List (List Nat))
    (vertices : List α) (eye : Vec3 α)
    (hne : ∀ f ∈ faces, f ≠ [])
    (hidx : ∀ f ∈ faces, ∀ i ∈ f, i < vertices.length / 3) :
    sortFacesByDepth sqrt (sortFacesByDepth sqrt faces vertices eye) vertices eye
      = sortFacesByDepth sqrt faces vertices eye := by
  have hmem : ∀ f, f ∈ sortFacesByDepth sqrt faces vertices eye → f ∈ faces :=
    fun f hf => (sortFacesByDepth_perm_faces sqrt faces vertices eye).mem_iff.mp hf
  have hne2 : ∀ f ∈ sortFacesByDepth sqrt faces vertices eye, f ≠ [] :=
    fun f hf => hne f (hmem f hf)
  have hidx2 : ∀ f ∈ sortFacesByDepth sqrt faces vertices eye,
      ∀ i ∈ f, i < vertices.length / 3 := fun f hf => hidx f (hmem f hf)
  exact (sortFacesByDepth_unique_stable sqrt _ vertices eye hne2 hidx2 _
    (sortFacesByDepth_pairwise sqrt faces vertices eye hne hidx) (fun _ => rfl)).symm

/-- Claim C3 (transform correctness).  The function `transformVertices` keeps the length, and
component `3 * k + j` of its result is component `3 * k + j` of the input plus `t j`, for
every vertex `k` and axis `j`; this holds for every length, multiples of three among them. -/
theorem transformVertices_correct (v : List α) (t : Vec3 α) :
    (transformVertices v t).length = v.length ∧
      ∀ (k : Nat) (j : Fin 3),
        (transformVertices v t)[3 * k + j.val]? = (v[3 * k + j.val]?).map (fun x => x + t j) := by
  constructor
  · simp [transformVertices]
  · intro k j
    have hj : (3 * k + j.val) % 3 = j.val := by
      have := j.isLt
      omega
    simp only [transformVertices, List.getElem?_map, List.getElem?_enum, Option.map_map]
    cases v[3 * k + j.val]? with
    | none => rfl
    | some x =>
      simp only [Option.map_some', Function.comp]
      have hfin : (⟨(3 * k + j.val) % 3, Nat.mod_lt _ (by decide)⟩ : Fin 3) = j := Fin.ext hj
      rw [hfin]

end

/-! ### Draw stage: faces -/

section

variable {α : Type}

/-- The function `drawFace` appends one triangle-fan submission. -/
theorem drawFace_draws (gl : GLState α) (face : List Nat) (vertices color : List α) :
    (drawFace gl face vertices color).draws
      = gl.draws ++ [triangleFanCall vertices color face] := rfl

/-- Drawing a list of faces appends their triangle fans in order. -/
theorem foldl_drawFace_draws (vertices color : List α) (faces : List (List Nat))
    (gl : GLState α) :
    (faces.foldl (fun gl face => drawFace gl face vertices color) gl).draws
      = gl.draws ++ faces.map (triangleFanCall vertices color) := by
  induction faces generalizing gl with
  | nil => simp
  | cons f t ih => simp [List.foldl_cons, ih, drawFace_draws]

end

/-! ### Draw stage: scene -/

section

variable {α : Type} [LinearOrderedField α]

/-- Drawing one edge appends one black line submission. -/
theorem drawEdge_draws (vertices : List α) (gl : GLState α) (edge : List Nat) :
    (drawEdge vertices gl edge).draws = gl.draws ++ [blackLineCall vertices edge] := by
  have h0 : (0.0 : α) = 0 := by norm_num
  have h1 : (1.0 : α) = 1 := by norm_num
  simp [drawEdge, GLState.drawArrays, GLState.uniform4fv, GLState.bufferData, blackLineCall,
    h0, h1]

/-- The function `drawEdges` appends one black line per edge, in order. -/
theorem drawEdges_draws (vertices : List α) (edges : List (List Nat)) (gl : GLState α) :
    (drawEdges gl edges vertices).draws = gl.draws ++ edges.map (blackLineCall vertices) := by
  unfold drawEdges
  induction edges generalizing gl with
  | nil => simp
  | cons e t ih => simp [List.foldl_cons, ih, drawEdge_draws]

/-- One iteration of `drawScene` appends the submissions of its Solid. -/
theorem drawPyramid_draws (sqrt : α → α) (cam : Vec3 α) (gl : GLState α) (p : Solid α) :
    (drawPyramid sqrt cam gl p).1.draws = gl.draws ++ solidCalls sqrt cam p := by
  simp [drawPyramid, solidCalls, drawEdges_draws, foldl_drawFace_draws, List.append_assoc]

/-- One iteration of `drawScene` leaves the Solid with its faces in depth order. -/
theorem drawPyramid_solid (sqrt : α → α) (cam : Vec3 α) (gl : GLState α) (p : Solid α) :
    (drawPyramid sqrt cam gl p).2 = afterFrame sqrt cam p := rfl

/-- The loop of `drawScene`, from any context and any list of Solids already processed. -/
theorem drawScene_foldl (sqrt : α → α) (cam : Vec3 α) (pyramids : List (Solid α))
    (gl : GLState α) (done : List (Solid α)) :
    ((pyramids.foldl
        (fun (st : GLState α × List (Solid α)) pyramid =>
          let r := drawPyramid sqrt cam st.1 pyramid
          (r.1, st.2 ++ [r.2]))
        (gl, done)).1.draws
      = gl.draws ++ pyramids.flatMap (solidCalls sqrt cam)) ∧
    (pyramids.foldl
        (fun (st : GLState α × List (Solid α)) pyramid =>
          let r := drawPyramid sqrt cam st.1 pyramid
          (r.1, st.2 ++ [r.2]))
        (gl, done)).2
      = done ++ pyramids.map (afterFrame sqrt cam) := by
  induction pyramids generalizing gl done with
  | nil => simp
  | cons p t ih =>
    have h := ih (drawPyramid sqrt cam gl p).1 (done ++ [(drawPyramid sqrt cam gl p).2])
    simp only [List.foldl_cons, List.flatMap_cons, List.map_cons]
    refine ⟨?_, ?_⟩
    · rw [h.1, drawPyramid_draws, List.append_assoc]
    · rw [h.2, drawPyramid_solid, List.append_assoc]; rfl

/-- The submissions of `drawScene`: those of every Solid, in scene order. -/
theorem drawScene_draws (sqrt : α → α) (gl : GLState α) (pyramids : List (Solid α))
    (cam : Vec3 α) :
    (drawScene sqrt gl pyramids cam).1.draws
      = gl.draws ++ pyramids.flatMap (solidCalls sqrt cam) :=
  (drawScene_foldl sqrt cam pyramids gl []).1

/-- The Solids after `drawScene`: each with its faces in depth order. -/
theorem drawScene_solids (sqrt : α → α) (gl : GLState α) (pyramids : List (Solid α))
    (cam : Vec3 α) :
    (drawScene sqrt gl pyramids cam).2 = pyramids.map (afterFrame sqrt cam) := by
  have h := (drawScene_foldl sqrt cam pyramids gl []).2
  simpa using h

/-- What `drawScene` leaves alone: vertices, edges, position and colour of every Solid. -/
theorem drawScene_preserves_geometry (sqrt : α → α) (gl : GLState α)
    (pyramids : List (Solid α)) (cam : Vec3 α) :
    (drawScene sqrt gl pyramids cam).2.map Solid.vertices = pyramids.map Solid.vertices ∧
    (drawScene sqrt gl pyramids cam).2.map Solid.edges = pyramids.map Solid.edges ∧
    (drawScene sqrt gl pyramids cam).2.map Solid.position = pyramids.map Solid.position ∧
    (drawScene sqrt gl pyramids cam).2.map Solid.color = pyramids.map Solid.color := by
  rw [drawScene_solids]
  simp [afterFrame, Function.comp_def]

/-- A Solid yields one submission per face and one per edge. -/
theorem solidCalls_length (sqrt : α → α) (cam : Vec3 α) (p : Solid α) :
    (solidCalls sqrt cam p).length = p.faces.length + p.edges.length := by
  simp [solidCalls, (sortFacesByDepth_perm_faces sqrt p.faces _ cam).length_eq]

/-- The Solids after a frame. -/
theorem render_solids (sqrt sin cos : α → α) (s : OrbitState α) (gl : GLState α)
    (pyramids : List (Solid α)) :
    (render sqrt sin cos s gl pyramids).2
      = pyramids.map (afterFrame sqrt (rotateCamera sin cos s.angleX s.angleY s.radius)) :=
  drawScene_solids sqrt gl pyramids _

/-- The submissions after a frame. -/
theorem render_draws (sqrt sin cos : α → α) (s : OrbitState α) (gl : GLState α)
    (pyramids : List (Solid α)) :
    (render sqrt sin cos s gl pyramids).1.draws
      = gl.draws
        ++ pyramids.flatMap (solidCalls sqrt (rotateCamera sin cos s.angleX s.angleY s.radius)) :=
  drawScene_draws sqrt gl pyramids _

/-- The submissions issued during a frame: the log after it, less the log before it. -/
theorem render_frame_calls (sqrt sin cos : α → α) (s : OrbitState α) (gl : GLState α)
    (pyramids : List (Solid α)) :
    (render sqrt sin cos s gl pyramids).1.draws.drop gl.draws.length
      = pyramids.flatMap (solidCalls sqrt (rotateCamera sin cos s.angleX s.angleY s.radius)) := by
  rw [render_draws, List.drop_left]

/-- Claim C10 (shape of the submissions).  The function `drawScene` submits, Solid by Solid, one
triangle fan per face (in depth order, in the fill colour of the Solid, with the length of the
face as vertex count) followed by one two-vertex line per edge in black `[0, 0, 0, 1]`; a Solid
with `n` faces and `m` edges therefore yields `n` fans and then `m` lines. -/
theorem drawScene_submissions (sqrt : α → α) (gl : GLState α) (pyramids : List (Solid α))
    (cam : Vec3 α) :
    (drawScene sqrt gl pyramids cam).1.draws
        = gl.draws ++ pyramids.flatMap (fun p =>
            (sortFacesByDepth sqrt p.faces (transformVertices p.vertices p.position) cam).map
                (triangleFanCall (transformVertices p.vertices p.position) p.color)
              ++ p.edges.map (blackLineCall (transformVertices p.vertices p.position))) ∧
      (∀ p ∈ pyramids,
        ((sortFacesByDepth sqrt p.faces (transformVertices p.vertices p.position) cam).map
            (triangleFanCall (transformVertices p.vertices p.position) p.color)).length
          = p.faces.length ∧
        (sortFacesByDepth sqrt p.faces (transformVertices p.vertices p.position) cam).Perm
          p.faces ∧
        (p.edges.map (blackLineCall (transformVertices p.vertices p.position))).length
          = p.edges.length) ∧
      (∀ (vertices color : List α) (face : List Nat),
        (triangleFanCall vertices color face).mode = DrawMode.TRIANGLE_FAN ∧
        (triangleFanCall vertices color face).count = face.length ∧
        (triangleFanCall vertices color face).color = color) ∧
      (∀ (vertices : List α) (edge : List Nat),
        (blackLineCall vertices edge).mode = DrawMode.LINES ∧
        (blackLineCall vertices edge).count = 2 ∧
        (blackLineCall vertices edge).color = [0, 0, 0, 1]) := by
  refine ⟨drawScene_draws sqrt gl pyramids cam, ?_, ?_, ?_⟩
  · intro p _
    have hp := sortFacesByDepth_perm_faces sqrt p.faces
      (transformVertices p.vertices p.position) cam
    exact ⟨by rw [List.length_map, hp.length_eq], hp, List.length_map _ _⟩
  · intro vertices color face
    exact ⟨rfl, rfl, rfl⟩
  · intro vertices edge
    exact ⟨rfl, rfl, rfl⟩

end

/-! ### Input controller -/

section

variable {α : Type} [LinearOrderedField α]

/-- Every listener keeps the vertical angle inside the clamp interval. -/
theorem handleEvent_angleY_clamped (PI : α) (hPI : 0 ≤ PI) (s : OrbitState α)
    (e : InputEvent α) (hs : -PI / 2 ≤ s.angleY ∧ s.angleY ≤ PI / 2) :
    -PI / 2 ≤ (handleEvent PI s e).angleY ∧ (handleEvent PI s e).angleY ≤ PI / 2 := by
  cases e with
  | mousedown x y => exact hs
  | mousemove x y =>
    unfold handleEvent
    by_cases hd : s.isDragging = true
    · simp only [hd, if_true]
      have hle : -PI / 2 ≤ PI / 2 := by
        have : -PI ≤ PI := by linarith
        exact div_le_div_of_nonneg_right this (by norm_num)
      exact ⟨le_max_left _ _, max_le hle (min_le_left _ _)⟩
    · simp only [hd]
      exact hs
  | mouseup => exact hs
  | mouseleave => exact hs
  | zoomInput v => exact hs

/-- Every sequence of events keeps the vertical angle inside the clamp interval. -/
theorem foldl_handleEvent_angleY_clamped (PI : α) (hPI : 0 ≤ PI) (events : List (InputEvent α))
    (s : OrbitState α) (hs : -PI / 2 ≤ s.angleY ∧ s.angleY ≤ PI / 2) :
    -PI / 2 ≤ (events.foldl (handleEvent PI) s).angleY
      ∧ (events.foldl (handleEvent PI) s).angleY ≤ PI / 2 := by
  induction events generalizing s with
  | nil => exact hs
  | cons e t ih => exact ih _ (handleEvent_angleY_clamped PI hPI s e hs)

end

/-! ### Camera and controller over the reals -/

/-- Claim C8 (eye on the sphere).  Over the reals `rotateCamera` returns
`(r sin ax cos ay, r sin ay, r cos ax cos ay)`, the squares of its components add up to `r ^ 2`,
the state `(0, 0, 10)` gives `(0, 0, 10)`, and `angleY = π / 2` gives `(0, r, 0)`. -/
theorem rotateCamera_on_sphere (angleX angleY radius : ℝ) :
    rotateCamera Real.sin Real.cos angleX angleY radius
        = ![radius * Real.sin angleX * Real.cos angleY, radius * Real.sin angleY,
            radius * Real.cos angleX * Real.cos angleY] ∧
      (rotateCamera Real.sin Real.cos angleX angleY radius 0) ^ 2
          + (rotateCamera Real.sin Real.cos angleX angleY radius 1) ^ 2
          + (rotateCamera Real.sin Real.cos angleX angleY radius 2) ^ 2 = radius ^ 2 ∧
      rotateCamera Real.sin Real.cos 0 0 10 = ![0, 0, 10] ∧
      rotateCamera Real.sin Real.cos angleX (Real.pi / 2) radius = ![0, radius, 0] := by
  refine ⟨rfl, ?_, ?_, ?_⟩
  · simp only [rotateCamera, Matrix.cons_val_zero, Matrix.cons_val_one, Matrix.head_cons,
      Matrix.cons_val_two, Matrix.tail_cons]
    have hx := Real.sin_sq_add_cos_sq angleX
    have hy := Real.sin_sq_add_cos_sq angleY
    have : (radius * Real.sin angleX * Real.cos angleY) ^ 2 + (radius * Real.sin angleY) ^ 2
        + (radius * Real.cos angleX * Real.cos angleY) ^ 2
        = radius ^ 2 * ((Real.sin angleX ^ 2 + Real.cos angleX ^ 2) * Real.cos angleY ^ 2
            + Real.sin angleY ^ 2) := by ring
    rw [this, hx, one_mul, add_comm, hy, mul_one]
  · simp [rotateCamera]
  · simp [rotateCamera]

/-- Claim C6 (orbit angle clamp).  From the initial state, after any finite sequence of
pointer-down, pointer-move, pointer-up, pointer-leave and zoom events with arbitrary
coordinates, the vertical angle lies in `[-π / 2, π / 2]`. -/
theorem orbit_angleY_clamped (events : List (InputEvent ℝ)) :
    -Real.pi / 2 ≤ (runEvents Real.pi events).angleY
      ∧ (runEvents Real.pi events).angleY ≤ Real.pi / 2 := by
  have hpi : (0 : ℝ) ≤ Real.pi := Real.pi_pos.le
  refine foldl_handleEvent_angleY_clamped Real.pi hpi events initialOrbit ?_
  constructor
  · show -Real.pi / 2 ≤ 0
    linarith
  · show (0 : ℝ) ≤ Real.pi / 2
    linarith

/-- Scenario 2 of the specification: the initial orbit state puts the eye at `(0, 0, 10)`. -/
theorem initial_eye :
    rotateCamera Real.sin Real.cos (initialOrbit (α := ℝ)).angleX initialOrbit.angleY
      initialOrbit.radius = ![0, 0, 10] := by
  simp [rotateCamera, initialOrbit]
  norm_num

/-- The eye for angles `0`, `0` and radius `10`. -/
theorem eye_zero : rotateCamera Real.sin Real.cos 0 0 10 = ![0, 0, 10] := by
  simp [rotateCamera]

/-- The clamp leaves the angle `0` alone. -/
theorem clamp_zero : max (-Real.pi / 2) (min (Real.pi / 2) (0 : ℝ)) = 0 := by
  have hpi := Real.pi_pos
  rw [min_eq_right (by linarith), max_eq_right (by linarith)]

/-- The orbit variables after pressing at `(0, 0)` and dragging to `(100, 0)`. -/
theorem orbit_after_drag_right :
    runEvents Real.pi [InputEvent.mousedown 0 0, InputEvent.mousemove 100 0]
      = { radius := 10, angleX := 1, angleY := 0, isDragging := true,
          previousMouseX := 100, previousMouseY := 0 } := by
  have h1 : (0 : ℝ) + (100 - 0) * 0.01 = 1 := by norm_num
  have h2 : (0 : ℝ) + (0 - 0) * 0.01 = 0 := by norm_num
  have h3 : (10.0 : ℝ) = 10 := by norm_num
  simp only [runEvents, List.foldl_cons, List.foldl_nil, handleEvent, initialOrbit, if_true,
    h1, h2, h3, clamp_zero]

/-- The orbit variables after dragging back to `(0, 0)`: the initial angles and radius. -/
theorem orbit_after_drag_back :
    runEvents Real.pi [InputEvent.mousedown 0 0, InputEvent.mousemove 100 0,
        InputEvent.mousemove 0 0]
      = { radius := 10, angleX := 0, angleY := 0, isDragging := true,
          previousMouseX := 0, previousMouseY := 0 } := by
  have h := orbit_after_drag_right
  have h1 : (1 : ℝ) + (0 - 100) * 0.01 = 0 := by norm_num
  have h2 : (0 : ℝ) + (0 - 0) * 0.01 = 0 := by norm_num
  simp only [runEvents, List.foldl_cons, List.foldl_nil] at h ⊢
  rw [h]
  simp only [handleEvent, if_true, h1, h2, clamp_zero]

/-- After the drag to the right the eye has positive `x`. -/
theorem eye_after_drag_right_pos : 0 < 10 * Real.sin 1 * Real.cos 0 := by
  have h : 0 < Real.sin 1 :=
    Real.sin_pos_of_pos_of_lt_pi one_pos (by linarith [Real.pi_gt_three])
  rw [Real.cos_zero, mul_one]
  linarith

/-! ### Scenario 1 -/

/-- Claim C1 at scenario 1 of the specification: vertices of the unit pyramid, eye `(0, 0, 10)`,
faces `[0, 1, 4]` and `[0, 1, 2, 3]`, over the reals with the real square root. -/
theorem sortFacesByDepth_farthest_first_witness :
    (∀ f ∈ scenario1Faces, f ≠ []) ∧
    (∀ f ∈ scenario1Faces, ∀ i ∈ f, i < (scenario1Vertices (α := ℝ)).length / 3) ∧
    ((∀ f ∈ scenario1Faces,
        calculateFaceDepth Real.sqrt f scenario1Vertices scenario1Eye
          = some (meanDepth Real.sqrt f scenario1Vertices scenario1Eye)) ∧
      (sortFacesByDepth Real.sqrt scenario1Faces scenario1Vertices scenario1Eye).Chain'
        (fun f1 f2 => meanDepth Real.sqrt f1 scenario1Vertices scenario1Eye
          ≥ meanDepth Real.sqrt f2 scenario1Vertices scenario1Eye)) :=
  ⟨by decide, by decide,
    sortFacesByDepth_farthest_first Real.sqrt scenario1Faces scenario1Vertices scenario1Eye
      (by decide) (by decide)⟩

/-- Scenario 1: the mean depth of the side face `[0, 1, 4]`. -/
theorem scenario1_meanDepth_side :
    meanDepth Real.sqrt [0, 1, 4] scenario1Vertices scenario1Eye
      = (Real.sqrt 82 + Real.sqrt 82 + Real.sqrt 104) / 3 := by
  simp [meanDepth, euclideanDistance, scenario1Vertices, scenario1Eye]
  norm_num
  ring

/-- Scenario 1: the mean depth of the base face `[0, 1, 2, 3]`. -/
theorem scenario1_meanDepth_base :
    meanDepth Real.sqrt [0, 1, 2, 3] scenario1Vertices scenario1Eye
      = (Real.sqrt 82 + Real.sqrt 82 + Real.sqrt 122 + Real.sqrt 122) / 4 := by
  simp [meanDepth, euclideanDistance, scenario1Vertices, scenario1Eye]
  norm_num
  ring

/-- Scenario 1 of the specification: the base face is farther from the eye than the side face
and is therefore drawn first. -/
theorem scenario1_order :
    sortFacesByDepth Real.sqrt scenario1Faces scenario1Vertices (scenario1Eye (α := ℝ))
      = [[0, 1, 2, 3], [0, 1, 4]] := by
  have hA := calculateFaceDepth_eq_meanDepth Real.sqrt (scenario1Vertices (α := ℝ)) scenario1Eye
    [0, 1, 4] (by decide) (by decide)
  have hE := calculateFaceDepth_eq_meanDepth Real.sqrt (scenario1Vertices (α := ℝ)) scenario1Eye
    [0, 1, 2, 3] (by decide) (by decide)
  have h1 : Real.sqrt 82 < Real.sqrt 122 := Real.sqrt_lt_sqrt (by norm_num) (by norm_num)
  have h2 : Real.sqrt 104 < Real.sqrt 122 := Real.sqrt_lt_sqrt (by norm_num) (by norm_num)
  have hlt : meanDepth Real.sqrt [0, 1, 4] scenario1Vertices (scenario1Eye (α := ℝ))
      < meanDepth Real.sqrt [0, 1, 2, 3] scenario1Vertices scenario1Eye := by
    rw [scenario1_meanDepth_side, scenario1_meanDepth_base]
    linarith
  have hcmp : ¬ sortCompare (depthComparator Real.sqrt scenario1Vertices (scenario1Eye (α := ℝ)))
      [0, 1, 4] [0, 1, 2, 3] ≤ 0 := by
    rw [sortCompare_depth_of_some Real.sqrt _ _ _ _ _ _ hA hE]
    exact not_le.mpr hlt
  simp only [sortFacesByDepth, arraySort, scenario1Faces, List.insertionSort,
    List.orderedInsert, hcmp, if_false]

/-! ### The in-place sort across frames -/

/-- The world vertices of the first pyramid. -/
theorem pyramid1_world :
    transformVertices ([-1, 0, 1, 1, 0, 1, 1, 0, -1, -1, 0, -1, 0, 2, 0] : List ℝ) ![-3, 0, 0]
      = [-4, 0, 1, -2, 0, 1, -2, 0, -1, -4, 0, -1, -3, 2, 0] := by
  simp [transformVertices, List.enum, List.enumFrom]
  norm_num

/-- From `(0, 0, 10)` face `[0, 1, 4]` of the first pyramid is nearer than face `[1, 2, 4]`,
which follows it in the declared order. -/
theorem pyramid1_depth_lt :
    meanDepth Real.sqrt [0, 1, 4] ([-4, 0, 1, -2, 0, 1, -2, 0, -1, -4, 0, -1, -3, 2, 0] : List ℝ)
        ![0, 0, 10]
      < meanDepth Real.sqrt [1, 2, 4]
          ([-4, 0, 1, -2, 0, 1, -2, 0, -1, -4, 0, -1, -3, 2, 0] : List ℝ) ![0, 0, 10] := by
  have h : Real.sqrt 97 < Real.sqrt 125 := Real.sqrt_lt_sqrt (by norm_num) (by norm_num)
  have hA : meanDepth Real.sqrt [0, 1, 4]
      ([-4, 0, 1, -2, 0, 1, -2, 0, -1, -4, 0, -1, -3, 2, 0] : List ℝ) ![0, 0, 10]
      = (Real.sqrt 97 + Real.sqrt 85 + Real.sqrt 113) / 3 := by
    simp [meanDepth, euclideanDistance]
    norm_num
    ring
  have hB : meanDepth Real.sqrt [1, 2, 4]
      ([-4, 0, 1, -2, 0, 1, -2, 0, -1, -4, 0, -1, -3, 2, 0] : List ℝ) ![0, 0, 10]
      = (Real.sqrt 85 + Real.sqrt 125 + Real.sqrt 113) / 3 := by
    simp [meanDepth, euclideanDistance]
    norm_num
    ring
  rw [hA, hB]
  linarith

/-- Claim C4 (Solids are never mutated) fails on the first frame: rendered from the initial orbit
state, the `faces` list of the first pyramid is no longer in its declared order. -/
theorem first_frame_reorders_faces :
    (createPyramids (α := ℝ)).map Solid.faces
        = [[[0, 1, 4], [1, 2, 4], [2, 3, 4], [3, 0, 4], [0, 1, 2, 3]],
           [[0, 1, 4], [1, 2, 4], [2, 3, 4], [3, 0, 4], [0, 1, 2, 3]],
           [[0, 1, 4], [1, 2, 4], [2, 3, 4], [3, 0, 4], [0, 1, 2, 3]]] ∧
      ((render Real.sqrt Real.sin Real.cos initialOrbit GLState.fresh
          (createPyramids (α := ℝ))).2.map Solid.faces).head?
        ≠ some [[0, 1, 4], [1, 2, 4], [2, 3, 4], [3, 0, 4], [0, 1, 2, 3]] := by
  refine ⟨rfl, ?_⟩
  rw [render_solids, initial_eye]
  simp only [createPyramids, List.map_cons, List.head?_cons, afterFrame, pyramid1_world]
  intro h
  have hsorted := Option.some.inj h
  have hchain := sortFacesByDepth_chain Real.sqrt
    [[0, 1, 4], [1, 2, 4], [2, 3, 4], [3, 0, 4], [0, 1, 2, 3]]
    ([-4, 0, 1, -2, 0, 1, -2, 0, -1, -4, 0, -1, -3, 2, 0] : List ℝ) ![0, 0, 10]
  rw [hsorted] at hchain
  have hAB := (List.chain'_cons.mp hchain).1
  have hA := calculateFaceDepth_eq_meanDepth Real.sqrt
    ([-4, 0, 1, -2, 0, 1, -2, 0, -1, -4, 0, -1, -3, 2, 0] : List ℝ) ![0, 0, 10]
    [0, 1, 4] (by decide) (by decide)
  have hB := calculateFaceDepth_eq_meanDepth Real.sqrt
    ([-4, 0, 1, -2, 0, 1, -2, 0, -1, -4, 0, -1, -3, 2, 0] : List ℝ) ![0, 0, 10]
    [1, 2, 4] (by decide) (by decide)
  rw [sortCompare_depth_of_some Real.sqrt _ _ _ _ _ _ hA hB] at hAB
  exact absurd pyramid1_depth_lt (not_lt.mpr hAB)

/-- The world vertices of the second pyramid. -/
theorem pyramid2_world :
    transformVertices ([-1, 0, 1, 1, 0, 1, 1, 0, -1, -1, 0, -1, 0, 2, 0] : List ℝ) ![0, 0, -5]
      = [-1, 0, -4, 1, 0, -4, 1, 0, -6, -1, 0, -6, 0, 2, -5] := by
  simp [transformVertices, List.enum, List.enumFrom]
  norm_num

/-- The mean depths of the two side faces `[1, 2, 4]` and `[3, 0, 4]` of the second pyramid. -/
theorem pyramid2_side_depths (x y z : ℝ) :
    meanDepth Real.sqrt [1, 2, 4]
        ([-1, 0, -4, 1, 0, -4, 1, 0, -6, -1, 0, -6, 0, 2, -5] : List ℝ) ![x, y, z]
      = (Real.sqrt ((1 - x) ^ 2 + y ^ 2 + (-4 - z) ^ 2)
          + Real.sqrt ((1 - x) ^ 2 + y ^ 2 + (-6 - z) ^ 2)
          + Real.sqrt (x ^ 2 + (2 - y) ^ 2 + (-5 - z) ^ 2)) / 3 ∧
    meanDepth Real.sqrt [3, 0, 4]
        ([-1, 0, -4, 1, 0, -4, 1, 0, -6, -1, 0, -6, 0, 2, -5] : List ℝ) ![x, y, z]
      = (Real.sqrt ((-1 - x) ^ 2 + y ^ 2 + (-6 - z) ^ 2)
          + Real.sqrt ((-1 - x) ^ 2 + y ^ 2 + (-4 - z) ^ 2)
          + Real.sqrt (x ^ 2 + (2 - y) ^ 2 + (-5 - z) ^ 2)) / 3 := by
  constructor
  · simp [meanDepth, euclideanDistance]
    ring
  · simp [meanDepth, euclideanDistance]
    ring

/-- Seen from the plane `x = 0` the two side faces are at exactly the same mean depth. -/
theorem pyramid2_sides_tie (y z : ℝ) :
    meanDepth Real.sqrt [3, 0, 4]
        ([-1, 0, -4, 1, 0, -4, 1, 0, -6, -1, 0, -6, 0, 2, -5] : List ℝ) ![0, y, z]
      = meanDepth Real.sqrt [1, 2, 4]
        ([-1, 0, -4, 1, 0, -4, 1, 0, -6, -1, 0, -6, 0, 2, -5] : List ℝ) ![0, y, z] := by
  rw [(pyramid2_side_depths 0 y z).1, (pyramid2_side_depths 0 y z).2]
  have h : ((-1 : ℝ) - 0) ^ 2 = (1 - 0) ^ 2 := by norm_num
  rw [h]
  ring

/-- Seen from `x > 0` the side face `[1, 2, 4]` is strictly nearer than `[3, 0, 4]`. -/
theorem pyramid2_right_nearer (x y z : ℝ) (hx : 0 < x) :
    meanDepth Real.sqrt [1, 2, 4]
        ([-1, 0, -4, 1, 0, -4, 1, 0, -6, -1, 0, -6, 0, 2, -5] : List ℝ) ![x, y, z]
      < meanDepth Real.sqrt [3, 0, 4]
        ([-1, 0, -4, 1, 0, -4, 1, 0, -6, -1, 0, -6, 0, 2, -5] : List ℝ) ![x, y, z] := by
  rw [(pyramid2_side_depths x y z).1, (pyramid2_side_depths x y z).2]
  have h1 : Real.sqrt ((1 - x) ^ 2 + y ^ 2 + (-4 - z) ^ 2)
      < Real.sqrt ((-1 - x) ^ 2 + y ^ 2 + (-4 - z) ^ 2) :=
    Real.sqrt_lt_sqrt (by positivity) (by nlinarith)
  have h2 : Real.sqrt ((1 - x) ^ 2 + y ^ 2 + (-6 - z) ^ 2)
      < Real.sqrt ((-1 - x) ^ 2 + y ^ 2 + (-6 - z) ^ 2) :=
    Real.sqrt_lt_sqrt (by positivity) (by nlinarith)
  linarith

/-- Claim C9 at the second pyramid of the scene seen from `(0, 0, 10)`, where the side faces
`[1, 2, 4]` and `[3, 0, 4]` are at exactly the same mean depth. -/
theorem sortFacesByDepth_idempotent_witness :
    (∀ f ∈ [[0, 1, 4], [1, 2, 4], [2, 3, 4], [3, 0, 4], [0, 1, 2, 3]], f ≠ []) ∧
    (∀ f ∈ [[0, 1, 4], [1, 2, 4], [2, 3, 4], [3, 0, 4], [0, 1, 2, 3]], ∀ i ∈ f,
      i < ([-1, 0, -4, 1, 0, -4, 1, 0, -6, -1, 0, -6, 0, 2, -5] : List ℝ).length / 3) ∧
    meanDepth Real.sqrt [3, 0, 4]
        ([-1, 0, -4, 1, 0, -4, 1, 0, -6, -1, 0, -6, 0, 2, -5] : List ℝ) ![0, 0, 10]
      = meanDepth Real.sqrt [1, 2, 4]
        ([-1, 0, -4, 1, 0, -4, 1, 0, -6, -1, 0, -6, 0, 2, -5] : List ℝ) ![0, 0, 10] ∧
    sortFacesByDepth Real.sqrt
        (sortFacesByDepth Real.sqrt [[0, 1, 4], [1, 2, 4], [2, 3, 4], [3, 0, 4], [0, 1, 2, 3]]
          ([-1, 0, -4, 1, 0, -4, 1, 0, -6, -1, 0, -6, 0, 2, -5] : List ℝ) ![0, 0, 10])
        ([-1, 0, -4, 1, 0, -4, 1, 0, -6, -1, 0, -6, 0, 2, -5] : List ℝ) ![0, 0, 10]
      = sortFacesByDepth Real.sqrt [[0, 1, 4], [1, 2, 4], [2, 3, 4], [3, 0, 4], [0, 1, 2, 3]]
          ([-1, 0, -4, 1, 0, -4, 1, 0, -6, -1, 0, -6, 0, 2, -5] : List ℝ) ![0, 0, 10] :=
  ⟨by decide, by decide, pyramid2_sides_tie 0 10,
    sortFacesByDepth_idempotent Real.sqrt _ _ _ (by decide) (by decide)⟩

/-- Sorting the second pyramid from the plane `x = 0` gives different orders for the declared
face list and for the list left by a frame seen from `x > 0`. -/
theorem pyramid2_order_depends_on_history (x y z y0 z0 : ℝ) (hx : 0 < x) :
    sortFacesByDepth Real.sqrt
        (sortFacesByDepth Real.sqrt [[0, 1, 4], [1, 2, 4], [2, 3, 4], [3, 0, 4], [0, 1, 2, 3]]
          ([-1, 0, -4, 1, 0, -4, 1, 0, -6, -1, 0, -6, 0, 2, -5] : List ℝ) ![x, y, z])
        ([-1, 0, -4, 1, 0, -4, 1, 0, -6, -1, 0, -6, 0, 2, -5] : List ℝ) ![0, y0, z0]
      ≠ sortFacesByDepth Real.sqrt [[0, 1, 4], [1, 2, 4], [2, 3, 4], [3, 0, 4], [0, 1, 2, 3]]
          ([-1, 0, -4, 1, 0, -4, 1, 0, -6, -1, 0, -6, 0, 2, -5] : List ℝ) ![0, y0, z0] := by
  have hperm1 := sortFacesByDepth_perm_faces Real.sqrt
    [[0, 1, 4], [1, 2, 4], [2, 3, 4], [3, 0, 4], [0, 1, 2, 3]]
    ([-1, 0, -4, 1, 0, -4, 1, 0, -6, -1, 0, -6, 0, 2, -5] : List ℝ) ![x, y, z]
  have hperm0 := sortFacesByDepth_perm_faces Real.sqrt
    [[0, 1, 4], [1, 2, 4], [2, 3, 4], [3, 0, 4], [0, 1, 2, 3]]
    ([-1, 0, -4, 1, 0, -4, 1, 0, -6, -1, 0, -6, 0, 2, -5] : List ℝ) ![0, y0, z0]
  have hpw := sortFacesByDepth_pairwise Real.sqrt
    [[0, 1, 4], [1, 2, 4], [2, 3, 4], [3, 0, 4], [0, 1, 2, 3]]
    ([-1, 0, -4, 1, 0, -4, 1, 0, -6, -1, 0, -6, 0, 2, -5] : List ℝ) ![x, y, z]
    (by decide) (by decide)
  have hDB1 : List.Sublist [[3, 0, 4], [1, 2, 4]]
      (sortFacesByDepth Real.sqrt [[0, 1, 4], [1, 2, 4], [2, 3, 4], [3, 0, 4], [0, 1, 2, 3]]
        ([-1, 0, -4, 1, 0, -4, 1, 0, -6, -1, 0, -6, 0, 2, -5] : List ℝ) ![x, y, z]) :=
    pair_sublist_of_pairwise
      (fun f1 f2 =>
        meanDepth Real.sqrt f2 ([-1, 0, -4, 1, 0, -4, 1, 0, -6, -1, 0, -6, 0, 2, -5] : List ℝ)
            ![x, y, z]
          ≤ meanDepth Real.sqrt f1
            ([-1, 0, -4, 1, 0, -4, 1, 0, -6, -1, 0, -6, 0, 2, -5] : List ℝ) ![x, y, z])
      [3, 0, 4] [1, 2, 4] (by decide)
      (not_le.mpr (pyramid2_right_nearer x y z hx)) _ hpw
      (hperm1.mem_iff.mpr (by decide)) (hperm1.mem_iff.mpr (by decide))
  have hDB2 := sortFacesByDepth_stable_pair Real.sqrt _
    ([-1, 0, -4, 1, 0, -4, 1, 0, -6, -1, 0, -6, 0, 2, -5] : List ℝ) ![0, y0, z0]
    [3, 0, 4] [1, 2, 4] (by decide) (by decide) (by decide) (by decide)
    (pyramid2_sides_tie y0 z0).symm.le hDB1
  have hBD := sortFacesByDepth_stable_pair Real.sqrt
    [[0, 1, 4], [1, 2, 4], [2, 3, 4], [3, 0, 4], [0, 1, 2, 3]]
    ([-1, 0, -4, 1, 0, -4, 1, 0, -6, -1, 0, -6, 0, 2, -5] : List ℝ) ![0, y0, z0]
    [1, 2, 4] [3, 0, 4] (by decide) (by decide) (by decide) (by decide)
    (pyramid2_sides_tie y0 z0).le (by decide)
  intro heq
  rw [heq] at hDB2
  exact not_both_orders _ _ _ (hperm0.nodup_iff.mpr (by decide)) hBD hDB2

/-- Distinct faces of the second pyramid give distinct triangle-fan submissions. -/
theorem pyramid2_fan_injective (color : List ℝ) :
    ∀ x ∈ [[0, 1, 4], [1, 2, 4], [2, 3, 4], [3, 0, 4], [0, 1, 2, 3]],
    ∀ y ∈ [[0, 1, 4], [1, 2, 4], [2, 3, 4], [3, 0, 4], [0, 1, 2, 3]],
      triangleFanCall ([-1, 0, -4, 1, 0, -4, 1, 0, -6, -1, 0, -6, 0, 2, -5] : List ℝ) color x
        = triangleFanCall ([-1, 0, -4, 1, 0, -4, 1, 0, -6, -1, 0, -6, 0, 2, -5] : List ℝ) color y
      → x = y := by
  intro x hx y hy h
  simp only [List.mem_cons, List.mem_singleton, List.not_mem_nil, or_false] at hx hy
  rcases hx with rfl | rfl | rfl | rfl | rfl <;> rcases hy with rfl | rfl | rfl | rfl | rfl <;>
    first
    | rfl
    | (exfalso
       simp [triangleFanCall, slice, List.flatMap] at h
       try norm_num at h)

/-- The submissions of a frame seen from `(0, 0, 10)` differ between the declared scene and the
scene left by a frame seen from `x > 0`. -/
theorem pyramid2_calls_depend_on_history (x y z : ℝ) (hx : 0 < x) :
    ((createPyramids (α := ℝ)).map (afterFrame Real.sqrt ![x, y, z])).flatMap
        (solidCalls Real.sqrt ![0, 0, 10])
      ≠ (createPyramids (α := ℝ)).flatMap (solidCalls Real.sqrt ![0, 0, 10]) := by
  intro h
  simp only [createPyramids, List.map_cons, List.map_nil, List.flatMap_cons,
    List.flatMap_nil] at h
  have h1 := (List.append_inj h (by simp [solidCalls_length, afterFrame,
    (sortFacesByDepth_perm_faces Real.sqrt _ _ _).length_eq])).2
  have h2 := (List.append_inj h1 (by simp [solidCalls_length, afterFrame,
    (sortFacesByDepth_perm_faces Real.sqrt _ _ _).length_eq])).1
  simp only [solidCalls, afterFrame, pyramid2_world] at h2
  have h3 := (List.append_inj h2 (by simp [
    (sortFacesByDepth_perm_faces Real.sqrt _ _ _).length_eq])).1
  refine pyramid2_order_depends_on_history x y z 0 10 hx
    (map_eq_map_of_injOn _ _ _ ?_ h3)
  intro a ha b hb
  refine pyramid2_fan_injective _ a ?_ b ?_
  · exact (sortFacesByDepth_perm_faces Real.sqrt _ _ _).mem_iff.mp
      ((sortFacesByDepth_perm_faces Real.sqrt _ _ _).mem_iff.mp ha)
  · exact (sortFacesByDepth_perm_faces Real.sqrt _ _ _).mem_iff.mp hb

/-- Claim C5 (frame-to-frame reproducibility) fails: pressing at `(0, 0)`, dragging to `(100, 0)`,
rendering a frame and dragging back to `(0, 0)` restores the initial angles and radius, yet the
frame rendered then draws the faces in another order, and issues other submissions, than the
frame rendered from the initial state of a fresh session. -/
theorem frame_order_depends_on_history :
    (runEvents Real.pi [InputEvent.mousedown 0 0, InputEvent.mousemove 100 0,
        InputEvent.mousemove 0 0]).angleX = (initialOrbit (α := ℝ)).angleX ∧
    (runEvents Real.pi [InputEvent.mousedown 0 0, InputEvent.mousemove 100 0,
        InputEvent.mousemove 0 0]).angleY = (initialOrbit (α := ℝ)).angleY ∧
    (runEvents Real.pi [InputEvent.mousedown 0 0, InputEvent.mousemove 100 0,
        InputEvent.mousemove 0 0]).radius = (initialOrbit (α := ℝ)).radius ∧
    (render Real.sqrt Real.sin Real.cos
        (runEvents Real.pi [InputEvent.mousedown 0 0, InputEvent.mousemove 100 0,
          InputEvent.mousemove 0 0])
        (render Real.sqrt Real.sin Real.cos
          (runEvents Real.pi [InputEvent.mousedown 0 0, InputEvent.mousemove 100 0])
          GLState.fresh createPyramids).1
        (render Real.sqrt Real.sin Real.cos
          (runEvents Real.pi [InputEvent.mousedown 0 0, InputEvent.mousemove 100 0])
          GLState.fresh createPyramids).2).2.map Solid.faces
      ≠ (render Real.sqrt Real.sin Real.cos initialOrbit GLState.fresh
          (createPyramids (α := ℝ))).2.map Solid.faces ∧
    ((render Real.sqrt Real.sin Real.cos
        (runEvents Real.pi [InputEvent.mousedown 0 0, InputEvent.mousemove 100 0,
          InputEvent.mousemove 0 0])
        (render Real.sqrt Real.sin Real.cos
          (runEvents Real.pi [InputEvent.mousedown 0 0, InputEvent.mousemove 100 0])
          GLState.fresh createPyramids).1
        (render Real.sqrt Real.sin Real.cos
          (runEvents Real.pi [InputEvent.mousedown 0 0, InputEvent.mousemove 100 0])
          GLState.fresh createPyramids).2).1.draws.drop
        (render Real.sqrt Real.sin Real.cos
          (runEvents Real.pi [InputEvent.mousedown 0 0, InputEvent.mousemove 100 0])
          GLState.fresh createPyramids).1.draws.length)
      ≠ (render Real.sqrt Real.sin Real.cos initialOrbit GLState.fresh
          (createPyramids (α := ℝ))).1.draws := by
  have h10 : (10.0 : ℝ) = 10 := by norm_num
  refine ⟨?_, ?_, ?_, ?_, ?_⟩
  · rw [orbit_after_drag_back]; rfl
  · rw [orbit_after_drag_back]; rfl
  · rw [orbit_after_drag_back]; exact h10.symm
  · rw [render_solids, render_solids, render_solids, initial_eye, orbit_after_drag_back,
      orbit_after_drag_right]
    simp only [eye_zero]
    intro h
    have h1 := congrArg (fun l => l[1]?) h
    simp only [createPyramids, List.map_cons, List.map_nil, afterFrame, pyramid2_world,
      List.getElem?_cons_succ, List.getElem?_cons_zero, Option.some.injEq] at h1
    exact pyramid2_order_depends_on_history _ _ _ 0 10 eye_after_drag_right_pos h1
  · rw [render_frame_calls, render_solids, render_draws, initial_eye,
      orbit_after_drag_back, orbit_after_drag_right]
    simp only [eye_zero, GLState.fresh, List.nil_append]
    exact pyramid2_calls_depend_on_history _ _ _ eye_after_drag_right_pos

/-! ### Start-up -/

/-- Claim C7 (initialization failure is terminal) fails on a binding that accepts `null` handles:
after a link failure, and after a compile failure, `initShaderProgram` returns `null` and `main`
still builds the geometry, registers the listeners and requests the render callback, whose
first frame issues 39 submissions. -/
theorem main_continues_after_shader_failure (α : Type) [LinearOrderedField α]
    (sqrt sin cos : α → α) :
    (initShaderProgram linkFailureHost).2 = some none ∧
    main linkFailureHost
      = [Effect.linkErrorLogged, Effect.geometryBuilt, Effect.listenersRegistered,
          Effect.renderRequested] ∧
    (createShader compileFailureHost ShaderType.VERTEX_SHADER).1 = none ∧
    (initShaderProgram compileFailureHost).2 = some none ∧
    main compileFailureHost
      = [Effect.compileErrorLogged, Effect.linkErrorLogged, Effect.geometryBuilt,
          Effect.listenersRegistered, Effect.renderRequested] ∧
    (render sqrt sin cos initialOrbit GLState.fresh createPyramids).1.draws.length = 39 := by
  refine ⟨rfl, rfl, rfl, rfl, rfl, ?_⟩
  rw [render_draws]
  simp [createPyramids, solidCalls_length, GLState.fresh]

/-- The guard that `main` does have: without a context it alerts and returns. -/
theorem main_without_context (host : WebGLHost) (h : host.contextAvailable = false) :
    main host = [Effect.alerted] := by
  simp [main, h]

/-- With a binding that rejects `null` handles, a failed start-up ends in an uncaught
`TypeError` before the geometry is built. -/
theorem main_throws_on_strict_binding (host : WebGLHost) (hc : host.contextAvailable = true)
    (hs : host.nullHandleThrows = true)
    (hfail : (initShaderProgram host).2 ≠ some (some ())) :
    Effect.geometryBuilt ∉ main host ∧ Effect.renderRequested ∉ main host := by
  rcases host with ⟨ctx, cs, ls, nt⟩
  simp only at hc hs
  subst hc hs
  cases hv : cs ShaderType.VERTEX_SHADER <;> cases hf : cs ShaderType.FRAGMENT_SHADER <;>
    cases ls <;> simp [main, initShaderProgram, createShader, hv, hf] at hfail ⊢

end Pyramids
